import Mathlib

/-!
Verification of the realtime sync hub (room manager, video playback state,
rate limiter, cursor batcher, time-exchange endpoint) as a shallow embedding
of the TypeScript source. Wall-clock timestamps are passed explicitly as
parameters (each `now` stands for one call to `Date.now()`); JS numbers are
modelled as rationals where division occurs and as integers for millisecond
timestamps used only additively. The Redis / in-memory store is modelled as
an explicit `Store` value threaded through the operations.
-/

namespace CSW

/-- VideoState from roomManager (src/unnamed/part_002): `isPlaying`,
`currentTime` and `duration` in seconds, `serverTimestamp` and
`lastUpdateTime` in milliseconds. -/
structure VideoState where
  isPlaying : Bool
  currentTime : ℚ
  duration : ℚ
  serverTimestamp : ℚ
  lastUpdateTime : ℚ
deriving DecidableEq, Repr

/-- Room metadata from roomManager: id, name, createdBy, createdAt (ms),
maxUsers, isPublic. -/
structure Room where
  id : String
  name : String
  createdBy : String
  createdAt : ℤ
  maxUsers : Nat
  isPublic : Bool
deriving DecidableEq, Repr

/-- RoomOptions from roomManager: all fields optional. -/
structure RoomOptions where
  name : Option String
  maxUsers : Option Nat
  isPublic : Option Bool
deriving DecidableEq, Repr

/-- User record from roomManager. -/
structure User where
  id : String
  city : String
  timezone : String
  flag : String
  connectedAt : ℤ
  lastSeen : ℤ
deriving DecidableEq, Repr

/-- CursorData from roomManager: userId, city, flag, x, y, timestamp. -/
structure CursorData where
  userId : String
  city : String
  flag : String
  x : ℚ
  y : ℚ
  timestamp : ℤ
deriving DecidableEq, Repr

/-- JS truthiness fallback `a || d` for an optional string: `undefined` and
the empty string fall back to the default (as in `options.name ||
`Room ${roomId}``). -/
def jsOrString (o : Option String) (d : String) : String :=
  match o with
  | some v => if v = "" then d else v
  | none => d

/-- JS truthiness fallback `a || d` for an optional number: `undefined` and
`0` fall back to the default (as in `options.maxUsers || 10000`). -/
def jsOrNat (o : Option Nat) (d : Nat) : Nat :=
  match o with
  | some v => if v = 0 then d else v
  | none => d

/-- JS `options.isPublic !== false`: true unless the field is literally
`false`. -/
def jsNotFalse (o : Option Bool) : Bool :=
  match o with
  | some b => b
  | none => true

/-- Hash-field set with JS `Map.set` / Redis `HSET` semantics over an
association list: if the key is present its value is replaced in place,
otherwise the pair is appended. -/
def hSet {α : Type} (l : List (String × α)) (k : String) (v : α) :
    List (String × α) :=
  if l.any (fun p => p.1 = k) then
    l.map (fun p => if p.1 = k then (k, v) else p)
  else
    l ++ [(k, v)]

/-- Hash-field lookup over an association list (first matching key). -/
def aLookup {α : Type} (l : List (String × α)) (k : String) : Option α :=
  (l.find? (fun p => p.1 = k)).map Prod.snd

/-- The key-value store backing the room manager: the `rooms:all` hash
(association list of roomId to Room), `room:{id}:meta`, `room:{id}:users`,
`room:{id}:video` and `room:{id}:cursors` keys (src/unnamed/part_002). -/
structure Store where
  allRooms : List (String × Room)
  roomMeta : String → Option Room
  roomUsers : String → List (String × User)
  roomVideo : String → Option VideoState
  roomCursors : String → List (String × CursorData)

/-- The store with no rooms, users, video states or cursors. -/
def emptyStore : Store :=
  { allRooms := []
    roomMeta := fun _ => none
    roomUsers := fun _ => []
    roomVideo := fun _ => none
    roomCursors := fun _ => [] }

/-- createRoom (src/unnamed/part_002 lines 98-120): builds `roomData` with
`createdAt = Date.now()` (here `now`), writes it into the `rooms:all` hash
and the `room:{id}:meta` key, and returns it. It never reads the existing
room. -/
def createRoom (s : Store) (now : ℤ) (roomId creatorId : String)
    (options : RoomOptions) : Room × Store :=
  let roomData : Room :=
    { id := roomId
      name := jsOrString options.name ("Room " ++ roomId)
      createdBy := creatorId
      createdAt := now
      maxUsers := jsOrNat options.maxUsers 10000
      isPublic := jsNotFalse options.isPublic }
  (roomData,
    { s with
      allRooms := hSet s.allRooms roomId roomData
      roomMeta := fun r => if r = roomId then some roomData else s.roomMeta r })

/-- getRoom (src/unnamed/part_002 lines 125-130): reads `room:{id}:meta`. -/
def getRoom (s : Store) (roomId : String) : Option Room :=
  s.roomMeta roomId

/-- getAllRooms (src/unnamed/part_002 lines 135-144): the values of the
`rooms:all` hash. -/
def getAllRooms (s : Store) : List Room :=
  s.allRooms.map Prod.snd

/-- deleteRoom (src/unnamed/part_002 lines 149-165): removes the room's
field from `rooms:all` and deletes the meta, users, video and cursors
keys. -/
def deleteRoom (s : Store) (roomId : String) : Store :=
  { allRooms := s.allRooms.filter (fun p => p.1 ≠ roomId)
    roomMeta := fun r => if r = roomId then none else s.roomMeta r
    roomUsers := fun r => if r = roomId then [] else s.roomUsers r
    roomVideo := fun r => if r = roomId then none else s.roomVideo r
    roomCursors := fun r => if r = roomId then [] else s.roomCursors r }

/-- getRoomUsers (src/unnamed/part_002 lines 207-213). -/
def getRoomUsers (s : Store) (roomId : String) : List (String × User) :=
  s.roomUsers roomId

/-- getRoomCursors (src/unnamed/part_002 lines 317-322). -/
def getRoomCursors (s : Store) (roomId : String) : List (String × CursorData) :=
  s.roomCursors roomId

/-- getDefaultVideoState (src/unnamed/part_002 lines 235-243): paused at 0
with duration 596 and both timestamps set to `Date.now()`. -/
def getDefaultVideoState (now : ℚ) : VideoState :=
  { isPlaying := false
    currentTime := 0
    duration := 596
    serverTimestamp := now
    lastUpdateTime := now }

/-- getVideoState (src/unnamed/part_002 lines 248-254): the stored state, or
the default state when absent. -/
def getVideoState (s : Store) (roomId : String) (now : ℚ) : VideoState :=
  (s.roomVideo roomId).getD (getDefaultVideoState now)

/-- setVideoState (src/unnamed/part_002 lines 259-274) applied to a full
state, as at every call site we verify: the merge of the current state with
a complete `VideoState` argument is that argument, with `serverTimestamp`
overwritten to `Date.now()`; the result is persisted and returned. -/
def setVideoState (s : Store) (roomId : String) (state : VideoState)
    (now : ℚ) : VideoState × Store :=
  let videoState : VideoState := { state with serverTimestamp := now }
  (videoState,
    { s with
      roomVideo := fun r =>
        if r = roomId then some videoState else s.roomVideo r })

/-- The in-place mutation of `state` performed by updateVideoTime
(src/unnamed/part_002 lines 279-298) before it persists: if playing, add
`(now - lastUpdateTime)/1000` to `currentTime` clamped at `duration`, set
`lastUpdateTime` to `now`, and reset `currentTime` to 0 when it reached
`duration`; in all cases set `serverTimestamp` to `now`. -/
def updateVideoTimePure (state : VideoState) (now : ℚ) : VideoState :=
  let state :=
    if state.isPlaying then
      let elapsed := (now - state.lastUpdateTime) / 1000
      let state :=
        { state with
          currentTime := min (state.currentTime + elapsed) state.duration
          lastUpdateTime := now }
      if state.duration ≤ state.currentTime then
        { state with currentTime := 0 }
      else state
    else state
  { state with serverTimestamp := now }

/-- updateVideoTime (src/unnamed/part_002 lines 279-298): reads the state,
mutates it as in `updateVideoTimePure`, persists it via setVideoState, and
returns the mutated state. -/
def updateVideoTime (s : Store) (roomId : String) (now : ℚ) :
    VideoState × Store :=
  let state := updateVideoTimePure (getVideoState s roomId now) now
  (state, (setVideoState s roomId state now).2)

/-- The `video:seek` handler (src/unnamed/part_003 lines 433-453): reads the
state, sets `currentTime` to `Math.max(0, Math.min(time, duration))` and
`lastUpdateTime` to now, and persists via setVideoState. -/
def videoSeekHandler (s : Store) (roomId : String) (time now : ℚ) :
    VideoState × Store :=
  let state := getVideoState s roomId now
  let state :=
    { state with
      currentTime := max 0 (min time state.duration)
      lastUpdateTime := now }
  setVideoState s roomId state now

/-- The `video:play` handler (src/unnamed/part_003 lines 390-410): calls
updateVideoTime, then sets `isPlaying` to true and `lastUpdateTime` to now
and persists via setVideoState. -/
def videoPlayHandler (s : Store) (roomId : String) (now : ℚ) :
    VideoState × Store :=
  let (state, s) := updateVideoTime s roomId now
  let state := { state with isPlaying := true, lastUpdateTime := now }
  setVideoState s roomId state now

/-- The `video:pause` handler (src/unnamed/part_003 lines 412-431): calls
updateVideoTime, then sets `isPlaying` to false and persists via
setVideoState. -/
def videoPauseHandler (s : Store) (roomId : String) (now : ℚ) :
    VideoState × Store :=
  let (state, s) := updateVideoTime s roomId now
  let state := { state with isPlaying := false }
  setVideoState s roomId state now

/-- The video states a room's stored (or default) state can take under the
hub's operations, with the wall clock non-decreasing: each constructor's
`now` is the `Date.now()` of that operation, and operations that measure
elapsed time require `lastUpdateTime ≤ now` (the clock has not gone
backwards since the last write). States are the values persisted by
`setVideoState` in each handler. -/
inductive ReachableVideo : VideoState → Prop where
  | initial (now : ℚ) : ReachableVideo (getDefaultVideoState now)
  | seek (st : VideoState) (t now : ℚ) :
      ReachableVideo st →
      ReachableVideo
        { st with
          currentTime := max 0 (min t st.duration)
          lastUpdateTime := now
          serverTimestamp := now }
  | play (st : VideoState) (now : ℚ) :
      ReachableVideo st → st.lastUpdateTime ≤ now →
      ReachableVideo
        { updateVideoTimePure st now with isPlaying := true, lastUpdateTime := now }
  | pause (st : VideoState) (now : ℚ) :
      ReachableVideo st → st.lastUpdateTime ≤ now →
      ReachableVideo { updateVideoTimePure st now with isPlaying := false }
  | tick (st : VideoState) (now : ℚ) :
      ReachableVideo st → st.lastUpdateTime ≤ now →
      ReachableVideo (updateVideoTimePure st now)

/-- Rate-limited actions (src/lib/rateLimiter.ts lines 38-44). -/
inductive RateLimitAction where
  | cursor
  | reaction
  | sync
  | message
  | roomJoin
  | videoControl
deriving DecidableEq, Repr

/-- The string name of an action, as interpolated into the Redis key. -/
def actionName : RateLimitAction → String
  | .cursor => "cursor"
  | .reaction => "reaction"
  | .sync => "sync"
  | .message => "message"
  | .roomJoin => "roomJoin"
  | .videoControl => "videoControl"

/-- RateLimitConfig (src/lib/rateLimiter.ts lines 21-24). -/
structure RateLimitConfig where
  max : Nat
  windowMs : Nat
deriving DecidableEq, Repr

/-- LIMITS (src/lib/rateLimiter.ts lines 54-61). -/
def LIMITS : RateLimitAction → RateLimitConfig
  | .cursor => { max := 20, windowMs := 1000 }
  | .reaction => { max := 5, windowMs := 1000 }
  | .sync => { max := 10, windowMs := 1000 }
  | .message => { max := 30, windowMs := 1000 }
  | .roomJoin => { max := 5, windowMs := 10000 }
  | .videoControl => { max := 10, windowMs := 1000 }

/-- RateLimitResult (src/lib/rateLimiter.ts lines 26-31). -/
structure RateLimitResult where
  allowed : Bool
  remaining : Nat
  resetIn : Nat
  count : Nat
deriving DecidableEq, Repr

/-- The Redis keyspace slice used by the rate limiter: a counter and an
optional TTL (seconds) per key. -/
structure CounterStore where
  counts : String → Nat
  ttl : String → Option Nat

/-- `Math.ceil(a / b)` on non-negative integers. -/
def ceilDiv (a b : Nat) : Nat :=
  (a + b - 1) / b

/-- incrementWithExpiry (src/unnamed/part_001 lines 210-220): `INCR` the
key; when the result is 1, set the key's TTL to `expirySeconds`; return the
incremented count. -/
def incrementWithExpiry (s : CounterStore) (key : String)
    (expirySeconds : Nat) : Nat × CounterStore :=
  let count := s.counts key + 1
  let s :=
    { s with counts := fun k => if k = key then count else s.counts k }
  if count = 1 then
    (count, { s with ttl := fun k => if k = key then some expirySeconds else s.ttl k })
  else
    (count, s)

/-- The Redis key for an action and user (src/lib/rateLimiter.ts line 80). -/
def rateLimitKey (action : RateLimitAction) (userId : String) : String :=
  "ratelimit:" ++ actionName action ++ ":" ++ userId

/-- checkRateLimit (src/lib/rateLimiter.ts lines 70-98), connected path:
increments the `ratelimit:{action}:{userId}` counter with TTL
`Math.ceil(windowMs/1000)` on first increment, and reports
`allowed = (count ≤ max)`, `remaining = max(0, max - count)`,
`resetIn = windowMs`. -/
def checkRateLimit (s : CounterStore) (userId : String)
    (action : RateLimitAction) : RateLimitResult × CounterStore :=
  let config := LIMITS action
  let key := rateLimitKey action userId
  let windowSeconds := ceilDiv config.windowMs 1000
  let (count, s) := incrementWithExpiry s key windowSeconds
  ({ allowed := decide (count ≤ config.max)
     remaining := config.max - count
     resetIn := config.windowMs
     count := count }, s)

/-- checkConnectionLimit (src/lib/rateLimiter.ts lines 297-317) for one
address: `attempts` is the recorded attempt list for the address's key,
`now` is `Date.now()`. Attempts older than one minute are filtered out; if
at least `maxPerMinute` recent attempts remain the call denies (returning
the stored list unchanged, since the code returns before `set`); otherwise
it admits and stores the recent attempts with `now` appended. -/
def checkConnectionLimit (now : ℤ) (attempts : List ℤ)
    (maxPerMinute : Nat) : Bool × List ℤ :=
  let recentAttempts := attempts.filter (fun t => now - t < 60000)
  if maxPerMinute ≤ recentAttempts.length then
    (false, attempts)
  else
    (true, recentAttempts ++ [now])

/-- The default value of checkConnectionLimit's `maxPerMinute` parameter
(src/lib/rateLimiter.ts line 299: `maxPerMinute: number = 10`). -/
def checkConnectionLimitDefault (now : ℤ) (attempts : List ℤ) :
    Bool × List ℤ :=
  checkConnectionLimit now attempts 10

/-- The connection admission check in the hub (src/unnamed/part_003 lines
226-233): `checkConnectionLimit(clientIP, 20)`. -/
def hubAdmitConnection (now : ℤ) (attempts : List ℤ) : Bool × List ℤ :=
  checkConnectionLimit now attempts 20

/-- batchCursorUpdate (src/unnamed/part_003 lines 164-169): `Map.set` the
cursor into the room's accumulator keyed by its userId. -/
def batchCursorUpdate (batch : List (String × CursorData)) (c : CursorData) :
    List (String × CursorData) :=
  hSet batch c.userId c

/-- One room's cursor-batch flush (src/unnamed/part_003 lines 563-571): a
non-empty accumulator is emitted as the list of its values and cleared; an
empty one emits nothing and is left as is. -/
def flushCursorBatch (batch : List (String × CursorData)) :
    Option (List CursorData) × List (String × CursorData) :=
  if batch.isEmpty then (none, batch)
  else (some (batch.map Prod.snd), [])

/-- The most recent cursor enqueued for user `u` in the sequence `us` of
enqueued cursors (spec wording: last-write-wins per user). -/
def mostRecentCursor (us : List CursorData) (u : String) : Option CursorData :=
  us.foldl (fun acc c => if c.userId = u then some c else acc) none

/-- The JSON body of a POST to the time endpoint; `clientSendTime` is
optional (destructuring an absent field yields undefined). -/
structure TimeRequestBody where
  clientSendTime : Option ℤ
deriving DecidableEq, Repr

/-- The success response of the time endpoint's POST handler. -/
structure TimePostResponse where
  clientSendTime : Option ℤ
  serverReceiveTime : ℤ
  serverSendTime : ℤ
  serverProcessingTime : ℤ
deriving DecidableEq, Repr

/-- POST /api/time (src/app/api/time/route.ts lines 25-50):
`serverReceiveTime` is captured at entry and `serverSendTime` after the body
is parsed; a parseable body yields a 200 response echoing `clientSendTime`
with `serverProcessingTime = serverSendTime - serverReceiveTime`; an
unparseable body yields a 400 error. -/
def timePostHandler (serverReceiveTime serverSendTime : ℤ)
    (body : Option TimeRequestBody) : Except String TimePostResponse :=
  match body with
  | some b =>
      .ok
        { clientSendTime := b.clientSendTime
          serverReceiveTime := serverReceiveTime
          serverSendTime := serverSendTime
          serverProcessingTime := serverSendTime - serverReceiveTime }
  | none => .error "Invalid request body"

/-! ## Concrete states used by witnesses -/

/-- A store holding a playing video state for room `demo`, started at
position 10s with `lastUpdateTime = 0`. -/
def demoPlayingStore : Store :=
  { emptyStore with
    roomVideo := fun r =>
      if r = "demo" then
        some { isPlaying := true, currentTime := 10, duration := 596,
               serverTimestamp := 0, lastUpdateTime := 0 }
      else none }

/-- A store holding one room `r` created by alice at time 1. -/
def demoRoomStore : Store :=
  (createRoom emptyStore 1 "r" "alice" ⟨none, none, none⟩).2

/-! ## Helper lemmas -/

/-- The state updateVideoTime produces always carries `serverTimestamp =
now`. -/
theorem updateVideoTimePure_serverTimestamp (st : VideoState) (now : ℚ) :
    (updateVideoTimePure st now).serverTimestamp = now := rfl

/-- setVideoState persists exactly the state it returns. -/
theorem setVideoState_stores_fst (s : Store) (roomId : String)
    (st : VideoState) (now : ℚ) :
    (setVideoState s roomId st now).2.roomVideo roomId
      = some (setVideoState s roomId st now).1 := by
  unfold setVideoState
  simp

/-- setVideoState stores exactly its argument when the argument's
`serverTimestamp` is already `now`. -/
theorem setVideoState_stores (s : Store) (roomId : String) (st : VideoState)
    (now : ℚ) (h : st.serverTimestamp = now) :
    (setVideoState s roomId st now).2.roomVideo roomId = some st := by
  cases st with
  | mk ip ct d ts lt =>
    simp only [VideoState.serverTimestamp] at h
    simp [setVideoState, h]

/-! ## Theorems for the claims -/

/-- C1: for every room id and stored video state, `updateVideoTime` advances
`currentTime` by `(now - lastUpdateTime)/1000` clamped to `duration` when
playing, resets it to 0 when it reaches `duration`, and sets
`lastUpdateTime` to now; in all cases it sets `serverTimestamp` to now and
persists the resulting state under `room:{id}:video`. -/
theorem C1_updateVideoTime_behavior (s : Store) (roomId : String) (now : ℚ) :
    (updateVideoTime s roomId now).1 =
      (if (getVideoState s roomId now).isPlaying then
        { isPlaying := true
          currentTime :=
            if (getVideoState s roomId now).duration ≤
                min ((getVideoState s roomId now).currentTime +
                    (now - (getVideoState s roomId now).lastUpdateTime) / 1000)
                  (getVideoState s roomId now).duration
            then 0
            else
              min ((getVideoState s roomId now).currentTime +
                  (now - (getVideoState s roomId now).lastUpdateTime) / 1000)
                (getVideoState s roomId now).duration
          duration := (getVideoState s roomId now).duration
          serverTimestamp := now
          lastUpdateTime := now }
      else { getVideoState s roomId now with serverTimestamp := now }) ∧
    (updateVideoTime s roomId now).2.roomVideo roomId
      = some (updateVideoTime s roomId now).1 := by
  constructor
  · unfold updateVideoTime updateVideoTimePure
    cases h : (getVideoState s roomId now).isPlaying <;> simp [h]
    split <;> simp_all
  · show (setVideoState s roomId
        (updateVideoTimePure (getVideoState s roomId now) now) now).2.roomVideo
          roomId
      = some (updateVideoTimePure (getVideoState s roomId now) now)
    exact setVideoState_stores s roomId
      (updateVideoTimePure (getVideoState s roomId now) now) now rfl

/-- Witness for C1: a room playing from position 10 since time 0, ticked at
time 2000, advances to position 12 and is persisted. -/
theorem C1_witness :
    (updateVideoTime demoPlayingStore "demo" 2000).1
      = { isPlaying := true, currentTime := 12, duration := 596,
          serverTimestamp := 2000, lastUpdateTime := 2000 } ∧
    (updateVideoTime demoPlayingStore "demo" 2000).2.roomVideo "demo"
      = some (updateVideoTime demoPlayingStore "demo" 2000).1 := by
  have h := C1_updateVideoTime_behavior demoPlayingStore "demo" 2000
  refine ⟨?_, h.2⟩
  rw [h.1]
  norm_num [demoPlayingStore, getVideoState, getDefaultVideoState, min_def]

/-- C9: a paused room's position never drifts under `updateVideoTime`:
`currentTime`, `duration`, `lastUpdateTime` and `isPlaying` are unchanged;
only `serverTimestamp` is set to now, and the state is persisted. -/
theorem C9_updateVideoTime_paused (s : Store) (roomId : String) (now : ℚ)
    (hp : (getVideoState s roomId now).isPlaying = false) :
    (updateVideoTime s roomId now).1.currentTime
        = (getVideoState s roomId now).currentTime ∧
    (updateVideoTime s roomId now).1.duration
        = (getVideoState s roomId now).duration ∧
    (updateVideoTime s roomId now).1.lastUpdateTime
        = (getVideoState s roomId now).lastUpdateTime ∧
    (updateVideoTime s roomId now).1.isPlaying = false ∧
    (updateVideoTime s roomId now).1.serverTimestamp = now ∧
    (updateVideoTime s roomId now).2.roomVideo roomId
      = some (updateVideoTime s roomId now).1 := by
  unfold updateVideoTime updateVideoTimePure setVideoState
  simp [hp]

/-- Witness for C9 at the empty store: the default state is paused and the
tick at time 5 only refreshes `serverTimestamp`. -/
theorem C9_witness :
    (updateVideoTime emptyStore "r" 5).1.currentTime = 0 ∧
    (updateVideoTime emptyStore "r" 5).1.duration = 596 ∧
    (updateVideoTime emptyStore "r" 5).1.lastUpdateTime = 5 ∧
    (updateVideoTime emptyStore "r" 5).1.isPlaying = false ∧
    (updateVideoTime emptyStore "r" 5).1.serverTimestamp = 5 ∧
    (updateVideoTime emptyStore "r" 5).2.roomVideo "r"
      = some (updateVideoTime emptyStore "r" 5).1 := by
  have h := C9_updateVideoTime_paused emptyStore "r" 5 rfl
  simpa [emptyStore, getVideoState, getDefaultVideoState] using h

/-- C6: after `deleteRoom r`, `getRoom r` is null, the users and cursors
hashes are empty, the stored video state is absent (so `getVideoState`
yields the default), and no field for `r` remains in the `rooms:all` hash;
when every `rooms:all` field holds the room with that id, no room with id
`r` remains in the `getAllRooms` enumeration. -/
theorem C6_deleteRoom (s : Store) (r : String) (now : ℚ)
    (hkeys : ∀ p ∈ s.allRooms, (p.2).id = p.1) :
    getRoom (deleteRoom s r) r = none ∧
    getRoomUsers (deleteRoom s r) r = [] ∧
    getRoomCursors (deleteRoom s r) r = [] ∧
    (deleteRoom s r).roomVideo r = none ∧
    getVideoState (deleteRoom s r) r now = getDefaultVideoState now ∧
    ((deleteRoom s r).allRooms.any (fun p => decide (p.1 = r))) = false ∧
    ((getAllRooms (deleteRoom s r)).any (fun room => decide (room.id = r)))
      = false := by
  refine ⟨?_, ?_, ?_, ?_, ?_, ?_, ?_⟩
  · simp [getRoom, deleteRoom]
  · simp [getRoomUsers, deleteRoom]
  · simp [getRoomCursors, deleteRoom]
  · simp [deleteRoom]
  · simp [getVideoState, deleteRoom]
  · rw [Bool.eq_false_iff]
    intro hcontra
    rw [List.any_eq_true] at hcontra
    obtain ⟨p, hp, hpr⟩ := hcontra
    simp only [deleteRoom] at hp
    have hne := of_decide_eq_true (List.mem_filter.mp hp).2
    exact hne (of_decide_eq_true hpr)
  · rw [Bool.eq_false_iff]
    intro hcontra
    rw [List.any_eq_true] at hcontra
    obtain ⟨room, hroom, hid⟩ := hcontra
    simp only [getAllRooms, deleteRoom, List.mem_map] at hroom
    obtain ⟨p, hp, rfl⟩ := hroom
    have hne := of_decide_eq_true (List.mem_filter.mp hp).2
    rw [hkeys p (List.mem_filter.mp hp).1] at hid
    exact hne (of_decide_eq_true hid)

/-- Witness for C6: deleting room `r` from the store where alice created it
leaves every read empty. -/
theorem C6_witness :
    getRoom (deleteRoom demoRoomStore "r") "r" = none ∧
    getRoomUsers (deleteRoom demoRoomStore "r") "r" = [] ∧
    getRoomCursors (deleteRoom demoRoomStore "r") "r" = [] ∧
    (deleteRoom demoRoomStore "r").roomVideo "r" = none ∧
    getVideoState (deleteRoom demoRoomStore "r") "r" 7 = getDefaultVideoState 7 ∧
    ((deleteRoom demoRoomStore "r").allRooms.any
      (fun p => decide (p.1 = "r"))) = false ∧
    ((getAllRooms (deleteRoom demoRoomStore "r")).any
      (fun room => decide (room.id = "r"))) = false :=
  C6_deleteRoom demoRoomStore "r" 7 (by decide)

/-- C8: for a POST to the time endpoint with a parseable body, given a
non-decreasing clock (`serverReceiveTime ≤ serverSendTime`), the response
echoes `clientSendTime` and reports
`serverProcessingTime = serverSendTime - serverReceiveTime ≥ 0`. -/
theorem C8_timePost (serverReceiveTime serverSendTime : ℤ)
    (b : TimeRequestBody)
    (h : serverReceiveTime ≤ serverSendTime) :
    timePostHandler serverReceiveTime serverSendTime (some b) =
      Except.ok
        { clientSendTime := b.clientSendTime
          serverReceiveTime := serverReceiveTime
          serverSendTime := serverSendTime
          serverProcessingTime := serverSendTime - serverReceiveTime } ∧
    0 ≤ serverSendTime - serverReceiveTime := by
  exact ⟨rfl, by omega⟩

/-- Witness for C8 with `clientSendTime = 1000`, receive time 3 and send
time 5. -/
theorem C8_witness :
    timePostHandler 3 5 (some ⟨some 1000⟩) =
      Except.ok
        { clientSendTime := some 1000
          serverReceiveTime := 3
          serverSendTime := 5
          serverProcessingTime := 5 - 3 } ∧
    (0 : ℤ) ≤ 5 - 3 :=
  C8_timePost 3 5 ⟨some 1000⟩ (by decide)

/-- C10: a denied `checkConnectionLimit` call leaves the recorded attempt
list unchanged (the code returns before writing); only an admitted call
stores the pruned list with the new attempt appended. -/
theorem C10_connection_denial_frame (now : ℤ) (attempts : List ℤ)
    (m : Nat) :
    ((checkConnectionLimit now attempts m).1 = false →
      (checkConnectionLimit now attempts m).2 = attempts) ∧
    ((checkConnectionLimit now attempts m).1 = true →
      (checkConnectionLimit now attempts m).2 =
        attempts.filter (fun t => now - t < 60000) ++ [now]) := by
  by_cases h : m ≤ (attempts.filter (fun t => now - t < 60000)).length <;>
    simp [checkConnectionLimit, h]

/-- Witness for C10: with 3 fresh attempts and a threshold of 3 the call at
time 0 is denied and the recorded attempts are unchanged. -/
theorem C10_witness :
    (checkConnectionLimit 0 [0, 0, 0] 3).1 = false ∧
    (checkConnectionLimit 0 [0, 0, 0] 3).2 = [0, 0, 0] := by
  have h := C10_connection_denial_frame 0 [0, 0, 0] 3
  exact ⟨by decide, h.1 (by decide)⟩

/-- The store after `createRoom("r", "alice")` at time 1 followed by
`createRoom("r", "bob")` at time 2. -/
def c2SecondStore : Store :=
  (createRoom (createRoom emptyStore 1 "r" "alice" ⟨none, none, none⟩).2
    2 "r" "bob" ⟨none, none, none⟩).2

/-- C2 counterexample: calling createRoom twice for the same id does NOT
keep the first writer's fields — the second call overwrites them, so the
stored `createdAt` is the second call's time 2, not the first call's
time 1, and `createdBy` is the second caller. -/
theorem C2_counterexample :
    (getRoom c2SecondStore "r").map Room.createdAt = some 2 ∧
    ¬ ((getRoom c2SecondStore "r").map Room.createdAt = some 1) ∧
    (getRoom c2SecondStore "r").map Room.createdBy = some "bob" := by
  decide

/-- The count of `rooms:all` fields for the written key after hSet is
`max (previous count) 1`. -/
theorem countP_hSet {α : Type} (l : List (String × α)) (k : String) (v : α) :
    (hSet l k v).countP (fun p => decide (p.1 = k)) =
      max (l.countP (fun p => decide (p.1 = k))) 1 := by
  by_cases h : (l.any fun p => decide (p.1 = k)) = true
  · have hpos : 0 < l.countP (fun p => decide (p.1 = k)) := by
      rw [List.countP_pos_iff]
      rw [List.any_eq_true] at h
      obtain ⟨p, hp, hpk⟩ := h
      exact ⟨p, hp, hpk⟩
    have hmap : ((l.map fun p => if p.1 = k then (k, v) else p).countP
        fun p => decide (p.1 = k)) = l.countP (fun p => decide (p.1 = k)) := by
      rw [List.countP_map]
      apply List.countP_congr
      intro p _
      by_cases hp : p.1 = k <;> simp [hp]
    simp only [hSet, if_pos h, hmap]
    omega
  · have hzero : l.countP (fun p => decide (p.1 = k)) = 0 := by
      rw [List.countP_eq_zero]
      intro p hp
      intro hcontra
      exact h (List.any_eq_true.mpr ⟨p, hp, hcontra⟩)
    simp only [hSet, if_neg h, List.countP_append, hzero]
    simp

/-- C2 amended: two consecutive createRoom calls for the same id leave
exactly one `rooms:all` field for that id (provided the store had at most
one), and the stored room carries the SECOND call's fields — last writer
wins, not first. -/
theorem C2_amended (s : Store) (now1 now2 : ℤ) (roomId u1 u2 : String)
    (o1 o2 : RoomOptions)
    (hcount : (s.allRooms.countP (fun p => decide (p.1 = roomId))) ≤ 1) :
    getRoom (createRoom (createRoom s now1 roomId u1 o1).2
        now2 roomId u2 o2).2 roomId
      = some (createRoom (createRoom s now1 roomId u1 o1).2
          now2 roomId u2 o2).1 ∧
    (createRoom (createRoom s now1 roomId u1 o1).2
        now2 roomId u2 o2).1.createdAt = now2 ∧
    (createRoom (createRoom s now1 roomId u1 o1).2
        now2 roomId u2 o2).1.createdBy = u2 ∧
    ((createRoom (createRoom s now1 roomId u1 o1).2
        now2 roomId u2 o2).2.allRooms.countP
      (fun p => decide (p.1 = roomId))) = 1 := by
  refine ⟨?_, rfl, rfl, ?_⟩
  · simp [getRoom, createRoom]
  · simp only [createRoom]
    rw [countP_hSet, countP_hSet]
    omega

/-- Witness for the amended C2 on the empty store. -/
theorem C2_amended_witness :
    getRoom (createRoom (createRoom emptyStore 1 "r" "alice"
        ⟨none, none, none⟩).2 2 "r" "bob" ⟨none, none, none⟩).2 "r"
      = some (createRoom (createRoom emptyStore 1 "r" "alice"
          ⟨none, none, none⟩).2 2 "r" "bob" ⟨none, none, none⟩).1 ∧
    (createRoom (createRoom emptyStore 1 "r" "alice"
        ⟨none, none, none⟩).2 2 "r" "bob" ⟨none, none, none⟩).1.createdAt = 2 ∧
    (createRoom (createRoom emptyStore 1 "r" "alice"
        ⟨none, none, none⟩).2 2 "r" "bob" ⟨none, none, none⟩).1.createdBy
      = "bob" ∧
    ((createRoom (createRoom emptyStore 1 "r" "alice"
        ⟨none, none, none⟩).2 2 "r" "bob" ⟨none, none, none⟩).2.allRooms.countP
      (fun p => decide (p.1 = "r"))) = 1 :=
  C2_amended emptyStore 1 2 "r" "alice" "bob" ⟨none, none, none⟩
    ⟨none, none, none⟩ (by decide)

/-- The counter store with no counts and no TTLs. -/
def emptyCounterStore : CounterStore :=
  { counts := fun _ => 0, ttl := fun _ => none }

/-- C4: checkRateLimit increments the `ratelimit:{action}:{userId}` counter,
sets its TTL to `ceil(windowMs/1000)` seconds exactly on the first
increment of a window, reports allowed iff the post-increment count is at
most the action's max, always reports `resetIn = windowMs` (so on denial
`retryIn = windowMs`), and the six actions carry the listed (max, window)
pairs. -/
theorem C4_checkRateLimit (s : CounterStore) (userId : String)
    (action : RateLimitAction) :
    ((checkRateLimit s userId action).2.counts (rateLimitKey action userId)
      = s.counts (rateLimitKey action userId) + 1) ∧
    ((checkRateLimit s userId action).2.ttl (rateLimitKey action userId)
      = if s.counts (rateLimitKey action userId) = 0
        then some (ceilDiv (LIMITS action).windowMs 1000)
        else s.ttl (rateLimitKey action userId)) ∧
    ((checkRateLimit s userId action).1.allowed = true ↔
      s.counts (rateLimitKey action userId) + 1 ≤ (LIMITS action).max) ∧
    ((checkRateLimit s userId action).1.count
      = s.counts (rateLimitKey action userId) + 1) ∧
    ((checkRateLimit s userId action).1.resetIn = (LIMITS action).windowMs) ∧
    LIMITS .cursor = ⟨20, 1000⟩ ∧
    LIMITS .reaction = ⟨5, 1000⟩ ∧
    LIMITS .sync = ⟨10, 1000⟩ ∧
    LIMITS .message = ⟨30, 1000⟩ ∧
    LIMITS .roomJoin = ⟨5, 10000⟩ ∧
    LIMITS .videoControl = ⟨10, 1000⟩ := by
  by_cases h : s.counts (rateLimitKey action userId) = 0 <;>
    simp [checkRateLimit, incrementWithExpiry, h, LIMITS]

/-- Witness for C4: user u's first reaction of a window is allowed, with
count 1, TTL 1s and resetIn 1000ms. -/
theorem C4_witness :
    ((checkRateLimit emptyCounterStore "u" .reaction).2.counts
        (rateLimitKey .reaction "u")
      = emptyCounterStore.counts (rateLimitKey .reaction "u") + 1) ∧
    ((checkRateLimit emptyCounterStore "u" .reaction).2.ttl
        (rateLimitKey .reaction "u")
      = if emptyCounterStore.counts (rateLimitKey .reaction "u") = 0
        then some (ceilDiv (LIMITS .reaction).windowMs 1000)
        else emptyCounterStore.ttl (rateLimitKey .reaction "u")) ∧
    ((checkRateLimit emptyCounterStore "u" .reaction).1.allowed = true ↔
      emptyCounterStore.counts (rateLimitKey .reaction "u") + 1
        ≤ (LIMITS .reaction).max) ∧
    ((checkRateLimit emptyCounterStore "u" .reaction).1.count
      = emptyCounterStore.counts (rateLimitKey .reaction "u") + 1) ∧
    ((checkRateLimit emptyCounterStore "u" .reaction).1.resetIn
      = (LIMITS .reaction).windowMs) ∧
    LIMITS .cursor = ⟨20, 1000⟩ ∧
    LIMITS .reaction = ⟨5, 1000⟩ ∧
    LIMITS .sync = ⟨10, 1000⟩ ∧
    LIMITS .message = ⟨30, 1000⟩ ∧
    LIMITS .roomJoin = ⟨5, 10000⟩ ∧
    LIMITS .videoControl = ⟨10, 1000⟩ :=
  C4_checkRateLimit emptyCounterStore "u" .reaction

/-- C7 counterexample: the claim's "default threshold is 20" is false — the
default parameter is 10, so a call using the default denies an address with
only 10 recent attempts even though 10 < 20. -/
theorem C7_counterexample :
    (checkConnectionLimitDefault 0 (List.replicate 10 0)).1 = false ∧
    ((List.replicate 10 (0 : ℤ)).filter
      (fun t => (0 : ℤ) - t < 60000)).length < 20 := by
  decide

/-- C7 amended: checkConnectionLimit admits iff the number of recorded
attempts within the last 60s is strictly below the threshold; the DEFAULT
threshold is 10, and the hub's connection handler passes 20 explicitly. -/
theorem C7_amended (now : ℤ) (attempts : List ℤ) (m : Nat) :
    ((checkConnectionLimit now attempts m).1 = true ↔
      (attempts.filter (fun t => now - t < 60000)).length < m) ∧
    checkConnectionLimitDefault now attempts
      = checkConnectionLimit now attempts 10 ∧
    hubAdmitConnection now attempts = checkConnectionLimit now attempts 20 := by
  refine ⟨?_, rfl, rfl⟩
  by_cases h : m ≤ (attempts.filter (fun t => now - t < 60000)).length
  · simp only [checkConnectionLimit, if_pos h]
    constructor
    · intro hcontra
      exact absurd hcontra (by simp)
    · intro hlt
      omega
  · simp only [checkConnectionLimit, if_neg h]
    constructor
    · intro _
      omega
    · intro _
      trivial

/-- Witness for the amended C7: one fresh attempt, threshold 10, is
admitted. -/
theorem C7_amended_witness :
    (checkConnectionLimit 0 [0] 10).1 = true ∧
    checkConnectionLimitDefault 0 [0] = checkConnectionLimit 0 [0] 10 ∧
    hubAdmitConnection 0 [0] = checkConnectionLimit 0 [0] 20 := by
  have h := C7_amended 0 [0] 10
  exact ⟨h.1.mpr (by decide), h.2.1, C7_amended 0 [0] 20 |>.2.2⟩

/-! ## Video-state invariant (C3) -/

/-- updateVideoTime never changes the duration. -/
theorem updateVideoTimePure_duration (st : VideoState) (now : ℚ) :
    (updateVideoTimePure st now).duration = st.duration := by
  unfold updateVideoTimePure
  dsimp only
  split
  · split <;> rfl
  · rfl

/-- One tick keeps `currentTime` within `[0, duration]`, given the
invariant held before and the clock did not go backwards. -/
theorem updateVideoTimePure_bounds (st : VideoState) (now : ℚ)
    (h0 : 0 ≤ st.currentTime) (h1 : st.currentTime ≤ st.duration)
    (hd : 0 < st.duration) (hm : st.lastUpdateTime ≤ now) :
    0 ≤ (updateVideoTimePure st now).currentTime ∧
    (updateVideoTimePure st now).currentTime ≤ st.duration := by
  have helapsed : 0 ≤ (now - st.lastUpdateTime) / 1000 := by
    apply div_nonneg
    · linarith
    · norm_num
  unfold updateVideoTimePure
  dsimp only
  split
  · split
    · exact ⟨le_refl 0, le_of_lt hd⟩
    · constructor
      · exact le_min (by linarith) (le_of_lt hd)
      · exact min_le_right _ _
  · exact ⟨h0, h1⟩

/-- Every video state reachable through the hub's operations keeps
`currentTime` within `[0, duration]` with a positive duration. -/
theorem reachableVideo_inv (st : VideoState) (h : ReachableVideo st) :
    0 ≤ st.currentTime ∧ st.currentTime ≤ st.duration ∧ 0 < st.duration := by
  induction h with
  | initial now =>
      refine ⟨le_refl 0, ?_, ?_⟩ <;> norm_num [getDefaultVideoState]
  | seek st t now _ ih =>
      obtain ⟨ih0, ih1, ihd⟩ := ih
      refine ⟨le_max_left 0 _, ?_, ihd⟩
      exact max_le (le_of_lt ihd) (min_le_right _ _)
  | play st now _ hm ih =>
      obtain ⟨ih0, ih1, ihd⟩ := ih
      obtain ⟨b0, b1⟩ := updateVideoTimePure_bounds st now ih0 ih1 ihd hm
      refine ⟨b0, ?_, ?_⟩
      · show (updateVideoTimePure st now).currentTime
          ≤ (updateVideoTimePure st now).duration
        rw [updateVideoTimePure_duration]
        exact b1
      · show 0 < (updateVideoTimePure st now).duration
        rw [updateVideoTimePure_duration]
        exact ihd
  | pause st now _ hm ih =>
      obtain ⟨ih0, ih1, ihd⟩ := ih
      obtain ⟨b0, b1⟩ := updateVideoTimePure_bounds st now ih0 ih1 ihd hm
      refine ⟨b0, ?_, ?_⟩
      · show (updateVideoTimePure st now).currentTime
          ≤ (updateVideoTimePure st now).duration
        rw [updateVideoTimePure_duration]
        exact b1
      · show 0 < (updateVideoTimePure st now).duration
        rw [updateVideoTimePure_duration]
        exact ihd
  | tick st now _ hm ih =>
      obtain ⟨ih0, ih1, ihd⟩ := ih
      obtain ⟨b0, b1⟩ := updateVideoTimePure_bounds st now ih0 ih1 ihd hm
      rw [updateVideoTimePure_duration]
      exact ⟨b0, b1, ihd⟩

/-- The seek handler persists exactly the reachability relation's seek
successor of the current state. -/
theorem videoSeekHandler_stored (s : Store) (roomId : String) (t now : ℚ) :
    (videoSeekHandler s roomId t now).2.roomVideo roomId =
      some
        { getVideoState s roomId now with
          currentTime := max 0 (min t (getVideoState s roomId now).duration)
          lastUpdateTime := now
          serverTimestamp := now } := by
  unfold videoSeekHandler setVideoState
  simp

/-- The play handler persists exactly the reachability relation's play
successor of the current state. -/
theorem videoPlayHandler_stored (s : Store) (roomId : String) (now : ℚ) :
    (videoPlayHandler s roomId now).2.roomVideo roomId =
      some
        { updateVideoTimePure (getVideoState s roomId now) now with
          isPlaying := true
          lastUpdateTime := now } := by
  unfold videoPlayHandler updateVideoTime setVideoState
  simp [updateVideoTimePure_serverTimestamp]

/-- The pause handler persists exactly the reachability relation's pause
successor of the current state. -/
theorem videoPauseHandler_stored (s : Store) (roomId : String) (now : ℚ) :
    (videoPauseHandler s roomId now).2.roomVideo roomId =
      some
        { updateVideoTimePure (getVideoState s roomId now) now with
          isPlaying := false } := by
  unfold videoPauseHandler updateVideoTime setVideoState
  simp [updateVideoTimePure_serverTimestamp]

/-- C3: every video state reachable through the hub's operations (default
on first read, seek with any t, play, pause, periodic tick — with the wall
clock non-decreasing) satisfies `0 ≤ currentTime ≤ duration`; in
particular the seek handler stores `clamp(t, 0, duration)` and sets
`lastUpdateTime` to now. -/
theorem C3_video_invariant (st : VideoState) (h : ReachableVideo st)
    (s : Store) (roomId : String) (t now : ℚ) :
    (0 ≤ st.currentTime ∧ st.currentTime ≤ st.duration) ∧
    (videoSeekHandler s roomId t now).1.currentTime
      = max 0 (min t (getVideoState s roomId now).duration) ∧
    (videoSeekHandler s roomId t now).1.lastUpdateTime = now ∧
    (videoSeekHandler s roomId t now).2.roomVideo roomId
      = some (videoSeekHandler s roomId t now).1 := by
  obtain ⟨h0, h1, _⟩ := reachableVideo_inv st h
  refine ⟨⟨h0, h1⟩, rfl, rfl, ?_⟩
  exact setVideoState_stores_fst s roomId _ now

/-- Witness for C3 at the default state and a seek past the end: position
stays clamped within `[0, 596]`. -/
theorem C3_witness :
    (0 ≤ (getDefaultVideoState 0).currentTime ∧
      (getDefaultVideoState 0).currentTime ≤ (getDefaultVideoState 0).duration) ∧
    (videoSeekHandler emptyStore "r" 700 5).1.currentTime
      = max 0 (min 700 (getVideoState emptyStore "r" 5).duration) ∧
    (videoSeekHandler emptyStore "r" 700 5).1.lastUpdateTime = 5 ∧
    (videoSeekHandler emptyStore "r" 700 5).2.roomVideo "r"
      = some (videoSeekHandler emptyStore "r" 700 5).1 :=
  C3_video_invariant (getDefaultVideoState 0) (ReachableVideo.initial 0)
    emptyStore "r" 700 5

/-! ## Cursor batching (C5) -/

/-- Lookup on a cons cell. -/
theorem aLookup_cons {α : Type} (p : String × α) (l : List (String × α))
    (u : String) :
    aLookup (p :: l) u = if p.1 = u then some p.2 else aLookup l u := by
  unfold aLookup
  rw [List.find?_cons]
  by_cases h : p.1 = u <;> simp [h]

/-- Replacing the value stored under key `k` does not change lookups at
other keys. -/
theorem aLookup_map_replace {α : Type} (l : List (String × α)) (k u : String)
    (v : α) (hne : u ≠ k) :
    aLookup (l.map fun p => if p.1 = k then (k, v) else p) u = aLookup l u := by
  induction l with
  | nil => rfl
  | cons a l ih =>
      rw [List.map_cons, aLookup_cons, aLookup_cons]
      by_cases hak : a.1 = k
      · rw [if_pos hak]
        rw [if_neg (fun hh : (k, v).1 = u => hne hh.symm)]
        rw [if_neg (fun hh : a.1 = u => hne (hak ▸ hh).symm)]
        exact ih
      · rw [if_neg hak]
        by_cases hau : a.1 = u
        · rw [if_pos hau, if_pos hau]
        · rw [if_neg hau, if_neg hau]
          exact ih

/-- Lookup after hSet: the written key now maps to the written value, all
other keys are unchanged. -/
theorem aLookup_hSet {α : Type} (l : List (String × α)) (k : String) (v : α)
    (u : String) :
    aLookup (hSet l k v) u = if u = k then some v else aLookup l u := by
  unfold hSet
  split
  · rename_i hany
    by_cases huk : u = k
    · subst huk
      rw [if_pos rfl]
      rw [List.any_eq_true] at hany
      obtain ⟨p, hp, hpk⟩ := hany
      have hpk2 : p.1 = u := of_decide_eq_true hpk
      clear hpk
      induction l with
      | nil => exact absurd hp (List.not_mem_nil p)
      | cons a l ih =>
          rw [List.map_cons, aLookup_cons]
          by_cases hak : a.1 = u
          · rw [if_pos hak]
            simp
          · rw [if_neg hak]
            rw [if_neg hak]
            rcases List.mem_cons.mp hp with rfl | hmem
            · exact absurd hpk2 hak
            · exact ih hmem
    · rw [if_neg huk]
      exact aLookup_map_replace l k u v huk
  · rename_i hany
    by_cases huk : u = k
    · subst huk
      rw [if_pos rfl]
      induction l with
      | nil => simp [aLookup_cons]
      | cons a l ih =>
          rw [List.cons_append, aLookup_cons]
          have hau : ¬ a.1 = u := by
            intro hcontra
            exact hany (List.any_eq_true.mpr ⟨a, List.mem_cons_self a l,
              decide_eq_true hcontra⟩)
          rw [if_neg hau]
          apply ih
          intro hcontra
          rw [List.any_eq_true] at hcontra
          obtain ⟨p, hp, hpk⟩ := hcontra
          exact hany (List.any_eq_true.mpr ⟨p, List.mem_cons_of_mem a hp, hpk⟩)
    · rw [if_neg huk]
      induction l with
      | nil =>
          rw [List.nil_append, aLookup_cons]
          rw [if_neg (fun hh : (k, v).1 = u => huk hh.symm)]
      | cons a l ih =>
          rw [List.cons_append, aLookup_cons, aLookup_cons]
          by_cases hau : a.1 = u
          · rw [if_pos hau, if_pos hau]
          · rw [if_neg hau, if_neg hau]
            apply ih
            intro hcontra
            rw [List.any_eq_true] at hcontra
            obtain ⟨p, hp, hpk⟩ := hcontra
            exact hany (List.any_eq_true.mpr ⟨p, List.mem_cons_of_mem a hp, hpk⟩)

/-- Folding cursor updates into an accumulator computes, at each user key,
the most recent cursor for that user (falling back to the accumulator's
entry). -/
theorem aLookup_foldl_batch (us : List CursorData)
    (l : List (String × CursorData)) (u : String) :
    aLookup (us.foldl batchCursorUpdate l) u
      = us.foldl (fun acc c => if c.userId = u then some c else acc)
          (aLookup l u) := by
  induction us generalizing l with
  | nil => rfl
  | cons c us ih =>
      rw [List.foldl_cons, List.foldl_cons, ih]
      congr 1
      rw [batchCursorUpdate, aLookup_hSet]
      by_cases h : c.userId = u
      · rw [if_pos h.symm, if_pos h]
      · rw [if_neg (fun hh : u = c.userId => h hh.symm), if_neg h]

/-- hSet preserves the no-duplicate-keys property of a hash. -/
theorem nodupKeys_hSet {α : Type} (l : List (String × α)) (k : String)
    (v : α) (h : (l.map Prod.fst).Nodup) :
    ((hSet l k v).map Prod.fst).Nodup := by
  unfold hSet
  split
  · rename_i hany
    rw [List.map_map]
    have : l.map (Prod.fst ∘ fun p => if p.1 = k then (k, v) else p)
        = l.map Prod.fst := by
      apply List.map_congr_left
      intro p _
      by_cases hp : p.1 = k <;> simp [hp]
    rw [this]
    exact h
  · rename_i hany
    rw [List.map_append, List.nodup_append]
    refine ⟨h, List.nodup_singleton _, ?_⟩
    intro x hx hx2
    simp only [List.map_cons, List.map_nil, List.mem_singleton] at hx2
    subst hx2
    rw [List.mem_map] at hx
    obtain ⟨p, hp, hpk⟩ := hx
    exact hany (List.any_eq_true.mpr ⟨p, hp, decide_eq_true hpk⟩)

/-- Accumulating cursor updates never introduces duplicate user keys. -/
theorem nodupKeys_foldl (us : List CursorData)
    (l : List (String × CursorData)) (h : (l.map Prod.fst).Nodup) :
    ((us.foldl batchCursorUpdate l).map Prod.fst).Nodup := by
  induction us generalizing l with
  | nil => exact h
  | cons c us ih =>
      rw [List.foldl_cons]
      exact ih _ (nodupKeys_hSet l c.userId c h)

/-- Every accumulator entry is keyed by its cursor's userId. -/
theorem keysMatch_hSet (l : List (String × CursorData)) (c : CursorData)
    (h : ∀ p ∈ l, (p.2).userId = p.1) :
    ∀ p ∈ hSet l c.userId c, (p.2).userId = p.1 := by
  unfold hSet
  split
  · intro p hp
    rw [List.mem_map] at hp
    obtain ⟨q, hq, rfl⟩ := hp
    by_cases hqk : q.1 = c.userId
    · rw [if_pos hqk]
    · rw [if_neg hqk]
      exact h q hq
  · intro p hp
    rcases List.mem_append.mp hp with hmem | hmem
    · exact h p hmem
    · rw [List.mem_singleton] at hmem
      subst hmem
      rfl

/-- Every entry of the folded accumulator is keyed by its cursor's
userId. -/
theorem keysMatch_foldl (us : List CursorData)
    (l : List (String × CursorData)) (h : ∀ p ∈ l, (p.2).userId = p.1) :
    ∀ p ∈ us.foldl batchCursorUpdate l, (p.2).userId = p.1 := by
  induction us generalizing l with
  | nil => exact h
  | cons c us ih =>
      rw [List.foldl_cons]
      exact ih _ (keysMatch_hSet l c h)

/-- C5: a cursor batch built from the updates enqueued since the previous
flush contains at most one entry per user id (the emitted userIds are
pairwise distinct), the entry stored for each user is the most recent
cursor enqueued for that user, an empty accumulator emits nothing, and a
non-empty accumulator is emitted as its value list and then cleared. -/
theorem C5_cursor_batch (us : List CursorData) (u : String) :
    (((us.foldl batchCursorUpdate []).map Prod.snd).map CursorData.userId).Nodup ∧
    aLookup (us.foldl batchCursorUpdate []) u = mostRecentCursor us u ∧
    ((us.foldl batchCursorUpdate []).isEmpty = true →
      (flushCursorBatch (us.foldl batchCursorUpdate [])).1 = none ∧
      (flushCursorBatch (us.foldl batchCursorUpdate [])).2
        = us.foldl batchCursorUpdate []) ∧
    ((us.foldl batchCursorUpdate []).isEmpty = false →
      (flushCursorBatch (us.foldl batchCursorUpdate [])).1
        = some ((us.foldl batchCursorUpdate []).map Prod.snd) ∧
      (flushCursorBatch (us.foldl batchCursorUpdate [])).2 = []) := by
  refine ⟨?_, ?_, ?_, ?_⟩
  · have hmatch := keysMatch_foldl us [] (by intro p hp; cases hp)
    have hkeys := nodupKeys_foldl us [] List.nodup_nil
    have heq : ((us.foldl batchCursorUpdate []).map Prod.snd).map
        CursorData.userId = (us.foldl batchCursorUpdate []).map Prod.fst := by
      rw [List.map_map]
      exact List.map_congr_left hmatch
    rw [heq]
    exact hkeys
  · rw [aLookup_foldl_batch]
    rfl
  · intro h
    simp [flushCursorBatch, h]
  · intro h
    simp [flushCursorBatch, h]

/-- Two cursor updates from the same user. -/
def cursorA : CursorData :=
  { userId := "u", city := "Berlin", flag := "de", x := 1, y := 2,
    timestamp := 100 }

/-- A later cursor update from the same user. -/
def cursorB : CursorData :=
  { userId := "u", city := "Berlin", flag := "de", x := 3, y := 4,
    timestamp := 200 }

/-- Witness for C5: two updates from user u collapse to one entry carrying
the later cursor, and the flush emits the values and clears. -/
theorem C5_witness :
    ((([cursorA, cursorB].foldl batchCursorUpdate []).map Prod.snd).map
      CursorData.userId).Nodup ∧
    aLookup ([cursorA, cursorB].foldl batchCursorUpdate []) "u"
      = mostRecentCursor [cursorA, cursorB] "u" ∧
    (flushCursorBatch ([cursorA, cursorB].foldl batchCursorUpdate [])).1
      = some (([cursorA, cursorB].foldl batchCursorUpdate []).map Prod.snd) ∧
    (flushCursorBatch ([cursorA, cursorB].foldl batchCursorUpdate [])).2
      = [] := by
  have h := C5_cursor_batch [cursorA, cursorB] "u"
  exact ⟨h.1, h.2.1, h.2.2.2 (by decide)⟩

end CSW
